import Mathlib

/-!
Verification development for the DISCO rule evaluation and action-application
engine (DICOM tag morphing).  The repository checkout holds the engine's
documentation (README, services README) and the rule-authoring frontend
(RulesEditor.jsx, ConditionEditor.jsx), but not `rule_engine.py` itself, so the
engine components (Attribute Accessor, Condition Evaluator, Logic Combinator,
Action Executor, Rule Resolver, Ruleset Orchestrator) are modelled from the
specification and marked as such; the rule-authoring form validation is
translated directly from the frontend source.
-/

namespace Disco

/-! ## String helpers (explicit, character-list based, so everything evaluates
in the kernel) -/

/-- Whether `pre` is a prefix of `s` (case-sensitive), over character lists. -/
def listIsPrefix : List Char → List Char → Bool
  | [], _ => true
  | _ :: _, [] => false
  | c :: cs, d :: ds => c == d && listIsPrefix cs ds

/-- Whether `needle` occurs as a contiguous substring of `hay`. -/
def listContainsSub (needle : List Char) : List Char → Bool
  | [] => listIsPrefix needle []
  | c :: cs => listIsPrefix needle (c :: cs) || listContainsSub needle cs

/-- Case-sensitive prefix of a string. -/
def strStarts (s pre : String) : Bool := listIsPrefix pre.data s.data

/-- Case-sensitive suffix of a string. -/
def strEnds (s suf : String) : Bool := listIsPrefix suf.data.reverse s.data.reverse

/-- Case-sensitive substring test. -/
def strHasSub (s sub : String) : Bool := listContainsSub sub.data s.data

/-- Leading and trailing whitespace removed (the JS `String.prototype.trim`
and the whitespace trimming of the `in`/`not_in` operators). -/
def trimChars (l : List Char) : List Char :=
  ((l.dropWhile Char.isWhitespace).reverse.dropWhile Char.isWhitespace).reverse

/-- String form of `trimChars`. -/
def strTrim (s : String) : String := String.mk (trimChars s.data)

/-- Split a character list on a separator character. -/
def splitOnChar (sep : Char) : List Char → List (List Char)
  | [] => [[]]
  | c :: cs =>
    let rest := splitOnChar sep cs
    if c == sep then [] :: rest
    else match rest with
      | [] => [[c]]
      | r :: rs => (c :: r) :: rs

/-- Comma-separated literal set of the `in`/`not_in` operators: split on
commas, trim whitespace (spec section 4.2). -/
def splitCSV (s : String) : List String :=
  (splitOnChar ',' s.data).map (fun l => String.mk (trimChars l))

/-- Lookup in an association list of string key/value entries. -/
def lookupS (entries : List (String × String)) (k : String) : Option String :=
  match entries with
  | [] => none
  | e :: rest => if e.1 == k then some e.2 else lookupS rest k

/-! ## Regular expressions

Modelled from the spec: `rule_engine.py` (absent from the checkout) compiles a
condition or action `pattern` and performs search / substitution with numbered
backreferences (spec sections 4.2 and 4.4).  The model implements the regex
dialect the spec exercises — literal characters, escaped characters, `.`,
postfix `*`, and numbered capture groups — with leftmost, greedy (backtracking)
matching; a pattern outside this dialect or syntactically malformed fails to
compile, which the engine reports as a configuration error. -/

/-- Abstract syntax of the supported patterns.  Groups carry their 1-based
index, assigned in order of opening parentheses. -/
inductive Re where
  | epsilon : Re
  | chr (c : Char) : Re
  | dot : Re
  | seq (a b : Re) : Re
  | star (r : Re) : Re
  | group (idx : Nat) (r : Re) : Re
deriving DecidableEq

/-- Structural size of a pattern, used to bound the matcher fuel. -/
def reSize : Re → Nat
  | .epsilon => 1
  | .chr _ => 1
  | .dot => 1
  | .seq a b => reSize a + reSize b + 1
  | .star r => reSize r + 1
  | .group _ r => reSize r + 1

/-- Attach a postfix `*` to the atom just parsed when one follows. -/
def applyStar (r : Re) (rest : List Char) : Re × List Char :=
  match rest with
  | '*' :: rest2 => (Re.star r, rest2)
  | _ => (r, rest)

/-- Recursive-descent pattern reader: returns the parsed sequence, the
unconsumed input (a closing parenthesis stops it), and the next group index.
Fuel bounds the recursion; `none` is a malformed or unsupported pattern. -/
def parseSeq : Nat → List Char → Nat → Option (Re × List Char × Nat)
  | 0, _, _ => none
  | _ + 1, [], g => some (Re.epsilon, [], g)
  | _ + 1, cs@(')' :: _), g => some (Re.epsilon, cs, g)
  | fuel + 1, '(' :: rest, g =>
    match parseSeq fuel rest (g + 1) with
    | some (inner, ')' :: rest2, g2) =>
      let (atom, rest3) := applyStar (Re.group g inner) rest2
      match parseSeq fuel rest3 g2 with
      | some (tail, rest4, g3) => some (Re.seq atom tail, rest4, g3)
      | none => none
    | _ => none
  | _ + 1, '*' :: _, _ => none
  | _ + 1, '|' :: _, _ => none
  | _ + 1, '+' :: _, _ => none
  | _ + 1, '?' :: _, _ => none
  | fuel + 1, '\\' :: rest, g =>
    match rest with
    | [] => none
    | c :: rest1 =>
      if c.isDigit then none
      else
        let (atom, rest2) := applyStar (Re.chr c) rest1
        match parseSeq fuel rest2 g with
        | some (tail, rest3, g2) => some (Re.seq atom tail, rest3, g2)
        | none => none
  | fuel + 1, '.' :: rest, g =>
    let (atom, rest2) := applyStar Re.dot rest
    match parseSeq fuel rest2 g with
    | some (tail, rest3, g2) => some (Re.seq atom tail, rest3, g2)
    | none => none
  | fuel + 1, c :: rest, g =>
    let (atom, rest2) := applyStar (Re.chr c) rest
    match parseSeq fuel rest2 g with
    | some (tail, rest3, g2) => some (Re.seq atom tail, rest3, g2)
    | none => none

/-- Compile a pattern string; `none` is an invalid pattern (a configuration
error at evaluation time, spec sections 4.2 and 7). -/
def parseRegex (pattern : String) : Option Re :=
  match parseSeq (2 * pattern.data.length + 2) pattern.data 1 with
  | some (r, [], _) => some r
  | _ => none

/-- Capture environment: group index paired with the matched characters; the
most recent capture of a group stands first. -/
abbrev Caps := List (Nat × List Char)

/-- Backtracking matcher.  `reMatch fuel r s caps` lists every way `r` can
match a prefix of `s`, as (unconsumed input, captures), in priority order:
greedy alternatives (more `star` repetitions) first, exactly the leftmost
greedy policy of the reference implementation.  Fuel makes it total; the
top-level entry points supply enough fuel for the whole search. -/
def reMatch : Nat → Re → List Char → Caps → List (List Char × Caps)
  | 0, _, _, _ => []
  | fuel + 1, re, s, caps =>
    match re with
    | .epsilon => [(s, caps)]
    | .chr c =>
      match s with
      | [] => []
      | d :: rest => if c == d then [(rest, caps)] else []
    | .dot =>
      match s with
      | [] => []
      | _ :: rest => [(rest, caps)]
    | .seq a b =>
      (reMatch fuel a s caps).flatMap (fun rc => reMatch fuel b rc.1 rc.2)
    | .group i r =>
      (reMatch fuel r s caps).map
        (fun rc => (rc.1, (i, s.take (s.length - rc.1.length)) :: rc.2))
    | .star r =>
      ((reMatch fuel r s caps).filter (fun rc => rc.1.length < s.length)).flatMap
        (fun rc => reMatch fuel (Re.star r) rc.1 rc.2)
      ++ [(s, caps)]

/-- Fuel sufficient for `reMatch` on input `s`. -/
def matchFuel (re : Re) (s : List Char) : Nat :=
  (s.length + 1) * (reSize re + 1) + 1

/-- Preferred (leftmost-greedy) match of `re` at the start of `s`. -/
def reMatchHere (re : Re) (s : List Char) : Option (List Char × Caps) :=
  (reMatch (matchFuel re s) re s []).head?

/-- Search: does `re` match anywhere in `s` (not anchored, spec section 4.2)? -/
def reSearchList (re : Re) : List Char → Bool
  | [] => (reMatchHere re []).isSome
  | c :: cs => (reMatchHere re (c :: cs)).isSome || reSearchList re cs

/-- Search on strings. -/
def reSearch (re : Re) (s : String) : Bool := reSearchList re s.data

/-- Expand a replacement template against captures: `\1`, `\2`, … are numbered
backreferences, any other escaped character stands for itself (spec
section 4.4). -/
def expandTemplate (caps : Caps) : List Char → List Char
  | [] => []
  | '\\' :: rest =>
    match rest with
    | [] => ['\\']
    | c :: rest1 =>
      if c.isDigit then
        (match caps.lookup (c.toNat - '0'.toNat) with
         | some m => m
         | none => []) ++ expandTemplate caps rest1
      else c :: expandTemplate caps rest1
  | c :: rest => c :: expandTemplate caps rest

/-- Substitution pass: replace every non-overlapping occurrence of `re` in the
input, leftmost first, expanding the template at each; an empty match emits
the expansion and advances one character. -/
def reSubGo (re : Re) (tmpl : List Char) : Nat → List Char → List Char
  | 0, s => s
  | fuel + 1, s =>
    match reMatchHere re s with
    | some (rest, caps) =>
      if rest.length < s.length then
        expandTemplate caps tmpl ++ reSubGo re tmpl fuel rest
      else
        match s with
        | [] => expandTemplate caps tmpl
        | c :: rest2 => expandTemplate caps tmpl ++ c :: reSubGo re tmpl fuel rest2
    | none =>
      match s with
      | [] => []
      | c :: rest => c :: reSubGo re tmpl fuel rest

/-- Regex substitution as the `regex` action performs it: compile `pattern`,
replace every occurrence in `value` by `replace` with backreferences expanded;
`none` is a pattern compilation failure. -/
def regexSub (pattern replace value : String) : Option String :=
  (parseRegex pattern).map
    (fun re => String.mk (reSubGo re replace.data (value.data.length + 1) value.data))

/-! ## Data model (spec section 3)

Modelled from the spec: the engine source `rule_engine.py` and the SQLAlchemy
models are not in the checkout; the types below follow spec section 3 and the
structured-action JSON format of the services README. -/

/-- Condition operators (spec section 3).  `exists` and `in` are Lean
keywords, hence the trailing underscores. -/
inductive Operator where
  | equals | not_equals | starts_with | ends_with | contains
  | regex | exists_ | not_exists | in_ | not_in
deriving DecidableEq

/-- Logic combinator selector of a rule (spec section 3). -/
inductive LogicOperator where
  | ALL | ANY
deriving DecidableEq

/-- Action discriminator (spec section 3). -/
inductive ActionType where
  | delete | regex | set_value | route_to_aet | discard | script
deriving DecidableEq

/-- A single match criterion (spec section 3). -/
structure Condition where
  «attribute» : String
  «operator» : Operator
  value : String
deriving DecidableEq

/-- A single transformation; `parameters` is the flat string-keyed mapping of
spec section 6. -/
structure ActionS where
  action_type : ActionType
  target : Option String
  parameters : List (String × String)
deriving DecidableEq

/-- A rule: conditions combined under `logic_operator`, actions applied in
declared order, evaluated in ascending `priority` (spec section 3). -/
structure Rule where
  name : String
  description : String
  logic_operator : LogicOperator
  priority : Int
  conditions : List Condition
  actions : List ActionS
deriving DecidableEq

/-- A named collection of rules; an inactive ruleset is excluded before its
rules reach the resolver (spec section 4.6). -/
structure RuleSetS where
  name : String
  rules : List Rule
  is_active : Bool
deriving DecidableEq

/-! ## Attribute Accessor (spec section 4.1)

Modelled from the spec: a uniform read/write view over the tag-keyed values of
the object plus the read-only context fields; values are stored in their
scalar projection form (multi-valued elements are joined at ingestion). -/

/-- Fixed enumeration of the context field names (spec section 3). -/
def contextFieldNames : List String :=
  ["ae_title", "calling_ae_title", "called_ae_title", "ip_address", "port",
   "source_path"]

/-- Engine error taxonomy (spec section 7): a `ReadOnlyAttributeError` is
treated as a configuration error. -/
inductive EngineError where
  | configurationError (detail : String)
  | readOnlyAttributeError (key : String)
deriving DecidableEq

/-- The per-evaluation view over an object: mutable tag entries plus the
read-only context fields captured at ingestion. -/
structure Accessor where
  tags : List (String × String)
  context : List (String × String)
deriving DecidableEq

/-- Read a key: tag entries first, then the context fields; `none` is
not-found, never an error (spec section 4.1). -/
def Accessor.get (acc : Accessor) (k : String) : Option String :=
  match lookupS acc.tags k with
  | some v => some v
  | none => lookupS acc.context k

/-- Replace the first entry with key `k`, or append one. -/
def setEntry (k v : String) : List (String × String) → List (String × String)
  | [] => [(k, v)]
  | e :: rest => if e.1 == k then (k, v) :: rest else e :: setEntry k v rest

/-- Write a key; a context field is rejected with `ReadOnlyAttributeError`
(spec section 4.1). -/
def Accessor.set (acc : Accessor) (k v : String) : Except EngineError Accessor :=
  if contextFieldNames.contains k then
    .error (.readOnlyAttributeError k)
  else
    .ok { acc with tags := setEntry k v acc.tags }

/-- Delete a key, reporting whether it existed; a context field is a rejected
write (spec section 4.1). -/
def Accessor.deleteKey (acc : Accessor) (k : String) :
    Except EngineError (Accessor × Bool) :=
  if contextFieldNames.contains k then
    .error (.readOnlyAttributeError k)
  else
    .ok ({ acc with tags := acc.tags.filter (fun e => e.1 != k) },
         (lookupS acc.tags k).isSome)

/-! ## Condition Evaluator (spec section 4.2)

Modelled from the spec: one boolean per condition; `exists`/`not_exists`
depend only on the found flag; every other operator treats absence as a
comparison against an empty/non-matching value; an invalid regex pattern is a
configuration error reported at evaluation time. -/

/-- Evaluate one condition against the accessor (spec section 4.2). -/
def evaluate (c : Condition) (acc : Accessor) : Except EngineError Bool :=
  let r := acc.get c.«attribute»
  match c.«operator» with
  | .exists_ => .ok r.isSome
  | .not_exists => .ok r.isNone
  | .equals =>
    .ok (match r with | some s => s == c.value | none => false)
  | .not_equals =>
    .ok (match r with | some s => s != c.value | none => true)
  | .starts_with =>
    .ok (match r with | some s => strStarts s c.value | none => false)
  | .ends_with =>
    .ok (match r with | some s => strEnds s c.value | none => false)
  | .contains =>
    .ok (match r with | some s => strHasSub s c.value | none => false)
  | .regex =>
    match r with
    | none => .ok false
    | some s =>
      match parseRegex c.value with
      | none => .error (.configurationError "invalid regex pattern")
      | some re => .ok (reSearch re s)
  | .in_ =>
    .ok (match r with | some s => (splitCSV c.value).contains s | none => false)
  | .not_in =>
    .ok (match r with | some s => !(splitCSV c.value).contains s | none => true)

/-! ## Logic Combinator (spec section 4.3) -/

/-- Combine condition results: `ALL` is true iff every result is true
(vacuously true when empty); `ANY` is true iff at least one result is true
(false when empty).  Modelled from the spec, section 4.3. -/
def combine (op : LogicOperator) (results : List Bool) : Bool :=
  match op with
  | .ALL => results.all (fun b => b)
  | .ANY => results.any (fun b => b)

/-- Evaluate every condition of a rule, propagating the first configuration
error (which the resolver records as a failed rule, spec section 7). -/
def evalConditions (conds : List Condition) (acc : Accessor) :
    Except EngineError (List Bool) :=
  match conds with
  | [] => .ok []
  | c :: rest =>
    match evaluate c acc with
    | .error e => .error e
    | .ok b =>
      match evalConditions rest acc with
      | .error e => .error e
      | .ok bs => .ok (b :: bs)

/-- Whether a rule matches: its condition results under its combinator. -/
def ruleMatches (r : Rule) (acc : Accessor) : Except EngineError Bool :=
  match evalConditions r.conditions acc with
  | .error e => .error e
  | .ok results => .ok (combine r.logic_operator results)

/-! ## Action Executor (spec section 4.4)

Modelled from the spec: one structured action applied to the accessor; a
configuration error (missing required parameter, invalid pattern, read-only
target) never throws — it is recorded as a failed outcome and the accessor is
left unchanged (spec section 7). -/

/-- Audit record of one applied action (spec sections 4.4 and 6). -/
structure ActionOutcome where
  action_type : ActionType
  target : Option String
  success : Bool
  detail : String
deriving DecidableEq

/-- Side-effect signals consumed by the transport collaborator. -/
inductive Signal where
  | route (dest : String)
  | discardObject
deriving DecidableEq

/-- Capability injected for the opaque `script` action: parameters and
accessor in, success flag and possibly mutated accessor out (spec
section 9, design note on the script hook). -/
abbrev ScriptHook := List (String × String) → Accessor → Bool × Accessor

/-- A failed outcome for action `a`: accessor unchanged, no signal. -/
def failOutcome (a : ActionS) (acc : Accessor) (msg : String) :
    Accessor × ActionOutcome × Option Signal :=
  (acc, ⟨a.action_type, a.target, false, msg⟩, none)

/-- Apply one action (spec section 4.4).  `delete` records whether the key
existed; `regex` on an absent target is a successful no-op and an invalid
pattern a hard failure for this action only; `set_value` overwrites;
`route_to_aet` and `discard` only emit signals; `script` delegates to the
injected hook. -/
def applyAction (hook : ScriptHook) (a : ActionS) (acc : Accessor) :
    Accessor × ActionOutcome × Option Signal :=
  match a.action_type with
  | .delete =>
    match a.target with
    | none => failOutcome a acc "missing target"
    | some t =>
      match acc.deleteKey t with
      | .error _ => failOutcome a acc "read-only attribute"
      | .ok (acc2, existed) =>
        (acc2, ⟨a.action_type, a.target, true,
                if existed then "deleted" else "no-op: key absent"⟩, none)
  | .regex =>
    match a.target with
    | none => failOutcome a acc "missing target"
    | some t =>
      match lookupS a.parameters "pattern", lookupS a.parameters "replace" with
      | some pat, some rep =>
        match acc.get t with
        | none => (acc, ⟨a.action_type, a.target, true, "no-op: target absent"⟩, none)
        | some oldv =>
          match regexSub pat rep oldv with
          | none => failOutcome a acc "invalid regex pattern"
          | some newv =>
            match acc.set t newv with
            | .error _ => failOutcome a acc "read-only attribute"
            | .ok acc2 =>
              (acc2, ⟨a.action_type, a.target, true, oldv ++ " -> " ++ newv⟩, none)
      | _, _ => failOutcome a acc "missing required parameter"
  | .set_value =>
    match a.target, lookupS a.parameters "value" with
    | some t, some v =>
      match acc.set t v with
      | .error _ => failOutcome a acc "read-only attribute"
      | .ok acc2 => (acc2, ⟨a.action_type, a.target, true, "set to " ++ v⟩, none)
    | _, _ => failOutcome a acc "missing target or value"
  | .route_to_aet =>
    match lookupS a.parameters "destination" with
    | none => failOutcome a acc "missing destination"
    | some d => (acc, ⟨a.action_type, a.target, true, "route to " ++ d⟩, some (.route d))
  | .discard =>
    (acc, ⟨a.action_type, a.target, true, "discard"⟩, some .discardObject)
  | .script =>
    let (ok, acc2) := hook a.parameters acc
    (acc2, ⟨a.action_type, a.target, ok, "script hook"⟩, none)

/-- Apply the actions of one matched rule in declared order; a `discard`
signal short-circuits the remaining actions of the rule (spec section 4.5);
the returned flag reports the discard. -/
def applyActions (hook : ScriptHook) :
    List ActionS → Accessor → Accessor × List ActionOutcome × Bool
  | [], acc => (acc, [], false)
  | a :: rest, acc =>
    let step := applyAction hook a acc
    match step.2.2 with
    | some .discardObject => (step.1, [step.2.1], true)
    | _ =>
      let res := applyActions hook rest step.1
      (res.1, step.2.1 :: res.2.1, res.2.2)

/-! ## Rule Resolver (spec section 4.5)

Modelled from the spec: rules sorted by ascending priority (stable on ties),
each evaluated through the combinator, actions of matching rules applied in
order; a per-rule configuration error records the rule as failed and never
prevents the following rules; the first-match/all-matches policy is an
explicit flag defaulting to all matches. -/

/-- Audit entry of one rule (spec section 6): whether it matched, whether it
failed with a configuration error, and its action outcomes. -/
structure RuleAudit where
  rule_name : String
  matched : Bool
  failed : Bool
  actions : List ActionOutcome
deriving DecidableEq

/-- Resolution policy flag (spec sections 4.5 and 9). -/
inductive ResolveMode where
  | firstMatch | allMatches
deriving DecidableEq

/-- The mode in force: the explicit flag when set, otherwise the default of
applying all matching rules in priority order (spec section 4.5). -/
def effectiveMode (flag : Option ResolveMode) : ResolveMode :=
  flag.getD .allMatches

/-- Stable insertion by priority: the new rule goes after every rule of
strictly smaller priority and before any rule of equal or larger priority. -/
def insertByPriority (r : Rule) : List Rule → List Rule
  | [] => [r]
  | x :: xs =>
    if x.priority < r.priority then x :: insertByPriority r xs
    else r :: x :: xs

/-- Stable sort of a ruleset by ascending priority (spec section 4.5): ties
keep the original insertion order. -/
def sortRules : List Rule → List Rule
  | [] => []
  | x :: xs => insertByPriority x (sortRules xs)

/-- Drive the already-ordered rule list (spec sections 4.5 and 7): a rule
whose evaluation raises a configuration error is skipped, recorded as failed,
and evaluation continues; a matching rule has its actions applied, after
which a `discard` terminates the run, `firstMatch` stops at the first match,
and `allMatches` continues with the remaining rules. -/
def runRules (hook : ScriptHook) (mode : ResolveMode) :
    List Rule → Accessor → Accessor × List RuleAudit
  | [], acc => (acc, [])
  | r :: rest, acc =>
    match ruleMatches r acc with
    | .error _ =>
      let res := runRules hook mode rest acc
      (res.1, ⟨r.name, false, true, []⟩ :: res.2)
    | .ok false =>
      let res := runRules hook mode rest acc
      (res.1, ⟨r.name, false, false, []⟩ :: res.2)
    | .ok true =>
      let step := applyActions hook r.actions acc
      if step.2.2 then (step.1, [⟨r.name, true, false, step.2.1⟩])
      else
        match mode with
        | .firstMatch => (step.1, [⟨r.name, true, false, step.2.1⟩])
        | .allMatches =>
          let res := runRules hook mode rest step.1
          (res.1, ⟨r.name, true, false, step.2.1⟩ :: res.2)

/-- The Rule Resolver: sort by priority (stable), then drive the rules. -/
def resolve (hook : ScriptHook) (mode : ResolveMode) (rules : List Rule)
    (acc : Accessor) : Accessor × List RuleAudit :=
  runRules hook mode (sortRules rules) acc

/-! ## Ruleset Orchestrator (spec section 4.6) -/

/-- Concatenation of the active rulesets in iteration order, each ruleset
sorted in its own priority space (spec section 4.6); inactive rulesets are
excluded before their rules reach the resolver. -/
def activeRules (rulesets : List RuleSetS) : List Rule :=
  ((rulesets.filter (fun rs => rs.is_active)).map (fun rs => sortRules rs.rules)).flatten

/-- One orchestration pass (spec section 4.6): build the evaluation context
from the object tags and the ingestion context, run the resolver over every
active ruleset, return the mutated accessor and the audit trail. -/
def orchestrate (hook : ScriptHook) (flag : Option ResolveMode)
    (rulesets : List RuleSetS) (tags context : List (String × String)) :
    Accessor × List RuleAudit :=
  runRules hook (effectiveMode flag) (activeRules rulesets) ⟨tags, context⟩

/-! ## Rule-authoring form (translated from the source)

`RuleForm.handleSubmit` of `RulesEditor.jsx` (the full form with the message
naming Attribute, Operator and Value): client-side validation and the payload
shape handed to `onSubmit`.  `parseIntJS` stands for the JS `parseInt(x, 10)`
(`none` when the result is `NaN`) and `jsonOk` for `JSON.parse` succeeding;
both are runtime builtins, passed as parameters. -/

/-- A condition row of the form state: all three fields are plain strings. -/
structure FormCondition where
  «attribute» : String
  «operator» : String
  value : String
deriving DecidableEq

/-- An action row of the form state: `target` and `parameters` are plain
strings, possibly empty. -/
structure FormAction where
  action_type : String
  target : String
  parameters : String
deriving DecidableEq

/-- The form state at submission time. -/
structure RuleFormState where
  name : String
  description : String
  logicOperator : String
  priority : String
  conditions : List FormCondition
  actions : List FormAction
deriving DecidableEq

/-- An action as transmitted: `target` is null when the field was the empty
string, `parameters` null when blank after trimming. -/
structure PayloadAction where
  action_type : String
  target : Option String
  parameters : Option String
deriving DecidableEq

/-- The payload `handleSubmit` hands to `onSubmit` on success. -/
structure RulePayload where
  name : String
  description : String
  logic_operator : String
  priority : Int
  conditions : List FormCondition
  actions : List PayloadAction
deriving DecidableEq

/-- The validation message of the condition loop (RulesEditor.jsx, RuleForm):
shown whenever a condition has an empty attribute or operator. -/
def conditionsRequiredMsg : String :=
  "All condition fields (Attribute, Operator, Value) are required."

/-- The per-action validation loop: an empty action type is an error; then,
when `parameters` is truthy (non-empty) and non-blank after trimming, it must
parse as JSON. -/
def validateActions (jsonOk : String → Bool) : List FormAction → Option String
  | [] => none
  | a :: rest =>
    if a.action_type == "" then
      some "Action Type is required for all actions."
    else if a.parameters != "" && strTrim a.parameters != "" && !(jsonOk a.parameters) then
      some ("Invalid JSON in parameters for action type " ++ a.action_type)
    else validateActions jsonOk rest

/-- RuleForm.handleSubmit of RulesEditor.jsx: name must be non-blank,
priority must parse as an integer, every condition needs a non-empty
attribute and operator (the value field is not checked), every action needs a
type and JSON-parseable non-blank parameters; on success the payload carries
the conditions unchanged and each action with empty target and blank
parameters replaced by null. -/
def handleSubmit (parseIntJS : String → Option Int) (jsonOk : String → Bool)
    (f : RuleFormState) : Except String RulePayload :=
  if strTrim f.name == "" then .error "Rule name is required."
  else
    match parseIntJS f.priority with
    | none => .error "Priority must be a number."
    | some priorityNum =>
      if f.conditions.any (fun c => c.«attribute» == "" || c.«operator» == "") then
        .error conditionsRequiredMsg
      else
        match validateActions jsonOk f.actions with
        | some msg => .error msg
        | none =>
          .ok { name := f.name
                description := f.description
                logic_operator := f.logicOperator
                priority := priorityNum
                conditions := f.conditions.map
                  (fun c => ⟨c.«attribute», c.«operator», c.value⟩)
                actions := f.actions.map
                  (fun a => ⟨a.action_type,
                    if a.target == "" then none else some a.target,
                    if strTrim a.parameters == "" then none else some a.parameters⟩) }

/-! ## Concrete instances used by the claim theorems -/

/-- A script hook that succeeds without touching the accessor (the `script`
action is exercised by no claim). -/
def idHook : ScriptHook := fun _ acc => (true, acc)

/-- The anonymisation rule of the spec scenario (section 8): condition
`ae_title equals STORESCU` under ALL, one regex action on tag 0010,0010 with
pattern `(.*)\^(.*)` and replacement `Anon\2`. -/
def anonRule : Rule :=
  { name := "anon"
    description := ""
    logic_operator := .ALL
    priority := 10
    conditions := [⟨"ae_title", .equals, "STORESCU"⟩]
    actions := [⟨.regex, some "0010,0010",
      [("pattern", "(.*)\\^(.*)"), ("replace", "Anon\\2")]⟩] }

/-- The scenario ruleset holding only `anonRule`. -/
def anonRuleset : RuleSetS := ⟨"scenario", [anonRule], true⟩

/-- The scenario object: one tag 0010,0010 = Smith^John. -/
def scenarioTags : List (String × String) := [("0010,0010", "Smith^John")]

/-- The scenario ingestion context: ae_title = STORESCU. -/
def scenarioContext : List (String × String) := [("ae_title", "STORESCU")]

/-- An always-matching rule (no conditions, ALL) of a given name and priority
whose single action records its name into tag 0008,0080. -/
def taggingRule (n : String) (p : Int) : Rule :=
  { name := n
    description := ""
    logic_operator := .ALL
    priority := p
    conditions := []
    actions := [⟨.set_value, some "0008,0080", [("value", n)]⟩] }

/-- A rule whose only condition carries the invalid regex pattern `(`: its
evaluation raises a ConfigurationError. -/
def invalidRegexRule : Rule :=
  { name := "bad"
    description := ""
    logic_operator := .ALL
    priority := 1
    conditions := [⟨"0010,0010", .regex, "("⟩]
    actions := [] }

/-- A regex action whose pattern `(` fails to compile. -/
def invalidRegexAction : ActionS :=
  ⟨.regex, some "0010,0010", [("pattern", "("), ("replace", "x")]⟩

/-! ## Helper lemmas -/

theorem strTrim_ne_empty {s : String} (h : strTrim s ≠ "") : s ≠ "" := by
  intro hs
  subst hs
  exact h rfl

theorem insertByPriority_perm (r : Rule) (l : List Rule) :
    (insertByPriority r l).Perm (r :: l) := by
  induction l with
  | nil => exact .refl _
  | cons x xs ih =>
    simp only [insertByPriority]
    split
    · exact (List.Perm.cons x ih).trans (List.Perm.swap r x xs)
    · exact .refl _

theorem mem_insertByPriority {a r : Rule} {l : List Rule} :
    a ∈ insertByPriority r l ↔ a = r ∨ a ∈ l := by
  rw [(insertByPriority_perm r l).mem_iff, List.mem_cons]

theorem pairwise_insertByPriority {r : Rule} {l : List Rule}
    (h : l.Pairwise (fun a b => a.priority ≤ b.priority)) :
    (insertByPriority r l).Pairwise (fun a b => a.priority ≤ b.priority) := by
  induction l with
  | nil => simp [insertByPriority]
  | cons x xs ih =>
    rcases List.pairwise_cons.mp h with ⟨hx, hxs⟩
    simp only [insertByPriority]
    split
    · next hlt =>
      refine List.pairwise_cons.mpr ⟨?_, ih hxs⟩
      intro b hb
      rcases mem_insertByPriority.mp hb with hb | hb
      · exact hb ▸ le_of_lt hlt
      · exact hx b hb
    · next hge =>
      refine List.pairwise_cons.mpr ⟨?_, h⟩
      intro b hb
      rcases List.mem_cons.mp hb with hb | hb
      · exact hb ▸ le_of_not_lt hge
      · exact le_trans (le_of_not_lt hge) (hx b hb)

theorem sortRules_perm (l : List Rule) : (sortRules l).Perm l := by
  induction l with
  | nil => exact .refl _
  | cons x xs ih =>
    simp only [sortRules]
    exact (insertByPriority_perm x (sortRules xs)).trans (List.Perm.cons x ih)

theorem pairwise_sortRules (l : List Rule) :
    (sortRules l).Pairwise (fun a b => a.priority ≤ b.priority) := by
  induction l with
  | nil => simp [sortRules]
  | cons x xs ih =>
    simp only [sortRules]
    exact pairwise_insertByPriority ih

theorem filter_insertByPriority (r : Rule) (l : List Rule) (p : Int) :
    (insertByPriority r l).filter (fun x => x.priority == p)
      = if r.priority == p
        then r :: l.filter (fun x => x.priority == p)
        else l.filter (fun x => x.priority == p) := by
  induction l with
  | nil => by_cases hrp : r.priority = p <;> simp [insertByPriority, hrp]
  | cons x xs ih =>
    simp only [insertByPriority]
    split
    · next hlt =>
      by_cases hrp : r.priority = p
      · have hxp : (x.priority == p) = false := by
          simp only [beq_eq_false_iff_ne, ne_eq]
          intro hx
          rw [hx, hrp] at hlt
          exact lt_irrefl p hlt
        simp [List.filter_cons, hxp, ih, hrp]
      · have hr : (r.priority == p) = false := by simp [hrp]
        simp [List.filter_cons, ih, hr]
    · next hge =>
      simp [List.filter_cons]

theorem filter_sortRules (l : List Rule) (p : Int) :
    (sortRules l).filter (fun x => x.priority == p)
      = l.filter (fun x => x.priority == p) := by
  induction l with
  | nil => rfl
  | cons x xs ih =>
    simp only [sortRules]
    rw [filter_insertByPriority]
    simp only [ih, List.filter_cons]

theorem lookupS_filter_ne (l : List (String × String)) (k : String) :
    lookupS (l.filter (fun e => e.1 != k)) k = none := by
  induction l with
  | nil => rfl
  | cons e rest ih =>
    by_cases he : e.1 = k
    · simp [List.filter_cons, he, ih]
    · simp [List.filter_cons, he, lookupS, ih]

theorem filter_ne_idem (l : List (String × String)) (k : String) :
    (l.filter (fun e => e.1 != k)).filter (fun e => e.1 != k)
      = l.filter (fun e => e.1 != k) := by
  induction l with
  | nil => rfl
  | cons e rest ih =>
    by_cases he : e.1 = k <;> simp [List.filter_cons, he, ih]

theorem filter_ne_of_lookupS_none {l : List (String × String)} {k : String}
    (h : lookupS l k = none) : l.filter (fun e => e.1 != k) = l := by
  induction l with
  | nil => rfl
  | cons e rest ih =>
    by_cases he : e.1 = k
    · simp [lookupS, he] at h
    · simp only [lookupS] at h
      rw [if_neg (by simp [he])] at h
      simp [List.filter_cons, he, ih h]

theorem applyAction_shape (hook : ScriptHook) (a : ActionS) (acc : Accessor)
    (hs : a.action_type ≠ .script) :
    (applyAction hook a acc).2.1.success = true ∨
    ((applyAction hook a acc).1 = acc ∧ (applyAction hook a acc).2.2 = none) := by
  cases hat : a.action_type
  case script => exact absurd hat hs
  all_goals
    simp only [applyAction, hat]
    repeat' split
  all_goals simp [failOutcome]

theorem applyAction_no_discard_signal (hook : ScriptHook) (a : ActionS) (acc : Accessor)
    (hd : a.action_type ≠ .discard) :
    (applyAction hook a acc).2.2 ≠ some .discardObject := by
  cases hat : a.action_type
  case discard => exact absurd hat hd
  all_goals
    simp only [applyAction, hat]
    repeat' split
  all_goals simp [failOutcome]

theorem applyActions_no_discard (hook : ScriptHook) (acts : List ActionS) :
    ∀ acc : Accessor, (∀ a ∈ acts, a.action_type ≠ .discard) →
      (applyActions hook acts acc).2.2 = false := by
  induction acts with
  | nil => intro acc _; rfl
  | cons a rest ih =>
    intro acc h
    have hsig := applyAction_no_discard_signal hook a acc (h a (List.mem_cons_self a rest))
    have hrest := fun x hx => h x (List.mem_cons_of_mem a hx)
    simp only [applyActions]
    cases hsg : (applyAction hook a acc).2.2 with
    | none => simp [hsg, ih _ hrest]
    | some s =>
      cases s with
      | route d => simp [hsg, ih _ hrest]
      | discardObject => exact absurd hsg hsig

theorem runRules_allMatches_names (hook : ScriptHook) (rules : List Rule) :
    ∀ acc : Accessor, (∀ r ∈ rules, ∀ a ∈ r.actions, a.action_type ≠ .discard) →
      ((runRules hook .allMatches rules acc).2).map (fun e => e.rule_name)
        = rules.map (fun r => r.name) := by
  induction rules with
  | nil => intro acc _; rfl
  | cons r rest ih =>
    intro acc h
    have hr := h r (List.mem_cons_self r rest)
    have hrest := fun x hx => h x (List.mem_cons_of_mem r hx)
    simp only [runRules]
    cases hm : ruleMatches r acc with
    | error e => simp [hm, ih _ hrest]
    | ok b =>
      cases b with
      | false => simp [hm, ih _ hrest]
      | true =>
        have hd := applyActions_no_discard hook r.actions acc hr
        simp [hm, hd, ih _ hrest]

theorem runRules_firstMatch_stops (hook : ScriptHook) (r : Rule) (rest : List Rule)
    (acc : Accessor) (hm : ruleMatches r acc = .ok true) :
    runRules hook .firstMatch (r :: rest) acc
      = ((applyActions hook r.actions acc).1,
         [⟨r.name, true, false, (applyActions hook r.actions acc).2.1⟩]) := by
  simp only [runRules, hm]
  split <;> rfl

theorem validateActions_none_iff (jsonOk : String → Bool) (acts : List FormAction)
    (h : ∀ a ∈ acts, a.action_type ≠ "") :
    validateActions jsonOk acts = none ↔
      ∀ a ∈ acts, strTrim a.parameters ≠ "" → jsonOk a.parameters = true := by
  induction acts with
  | nil => simp [validateActions]
  | cons a rest ih =>
    have ha := h a (List.mem_cons_self a rest)
    have hr := fun x hx => h x (List.mem_cons_of_mem a hx)
    have hta : (a.action_type == "") = false := by simpa using ha
    by_cases hp : strTrim a.parameters = ""
    · simp [validateActions, hta, hp, ih hr]
    · by_cases hj : jsonOk a.parameters = true
      · simp [validateActions, hta, hp, hj, strTrim_ne_empty hp, ih hr]
      · simp [validateActions, hta, hp, hj, strTrim_ne_empty hp]

theorem validateActions_ne_none_iff (jsonOk : String → Bool) (acts : List FormAction)
    (h : ∀ a ∈ acts, a.action_type ≠ "") :
    validateActions jsonOk acts ≠ none ↔
      ∃ a ∈ acts, strTrim a.parameters ≠ "" ∧ jsonOk a.parameters = false := by
  constructor
  · intro hne
    by_contra hno
    push_neg at hno
    refine hne ((validateActions_none_iff jsonOk acts h).mpr ?_)
    intro a ha hp
    have := hno a ha hp
    simpa using this
  · rintro ⟨a, ha, hp, hj⟩ hnone
    have := (validateActions_none_iff jsonOk acts h).mp hnone a ha hp
    rw [hj] at this
    exact Bool.false_ne_true this

/-! ## Claim theorems -/

/-- C2: for every sequence of condition results, `combine ALL` is true iff
every element is true (vacuously true when empty) and `combine ANY` is true
iff at least one element is true (false when empty); hence a rule with zero
conditions matches under ALL and never under ANY. -/
theorem combine_all_any_semantics :
    (∀ results : List Bool, (combine .ALL results = true ↔ ∀ b ∈ results, b = true)) ∧
    (∀ results : List Bool, (combine .ANY results = true ↔ ∃ b ∈ results, b = true)) ∧
    combine .ALL [] = true ∧
    combine .ANY [] = false ∧
    (∀ (r : Rule) (acc : Accessor), r.conditions = [] →
      (ruleMatches r acc = .ok true ↔ r.logic_operator = .ALL)) := by
  refine ⟨?_, ?_, rfl, rfl, ?_⟩
  · intro results
    simp [combine, List.all_eq_true]
  · intro results
    simp [combine, List.any_eq_true]
  · intro r acc h
    rw [ruleMatches, h]
    cases hop : r.logic_operator <;> simp [evalConditions, combine]

/-- Witness for C2 at concrete inputs: the empty result list under ALL, and a
concrete zero-condition ALL rule matching a concrete accessor. -/
theorem combine_all_any_semantics_witness :
    ruleMatches ⟨"r", "", .ALL, 0, [], []⟩ ⟨[], []⟩ = .ok true :=
  (combine_all_any_semantics.2.2.2.2 ⟨"r", "", .ALL, 0, [], []⟩ ⟨[], []⟩ rfl).mpr rfl

/-- C3: conditions with operator `exists` or `not_exists` depend only on the
found flag: the `value` field is ignored (any two values evaluate alike),
`exists` is true iff the attribute is present, and an empty-string tag value
still counts as present. -/
theorem exists_found_flag_only :
    (∀ (attr v w : String) (acc : Accessor),
      evaluate ⟨attr, .exists_, v⟩ acc = evaluate ⟨attr, .exists_, w⟩ acc ∧
      evaluate ⟨attr, .not_exists, v⟩ acc = evaluate ⟨attr, .not_exists, w⟩ acc) ∧
    (∀ (attr v : String) (acc : Accessor),
      (evaluate ⟨attr, .exists_, v⟩ acc = .ok true ↔ (acc.get attr).isSome = true) ∧
      (evaluate ⟨attr, .not_exists, v⟩ acc = .ok true ↔ (acc.get attr).isSome = false)) ∧
    evaluate ⟨"0010,0010", .exists_, "ignored"⟩ ⟨[("0010,0010", "")], []⟩ = .ok true := by
  refine ⟨fun attr v w acc => ⟨rfl, rfl⟩, fun attr v acc => ⟨?_, ?_⟩, rfl⟩
  · cases hg : acc.get attr <;> simp [evaluate, hg]
  · cases hg : acc.get attr <;> simp [evaluate, hg]

/-- C4: when the attribute is not found, every operator behaves as a
comparison against an empty/non-matching value: `equals`, `contains`,
`starts_with`, `ends_with`, `regex` and `in` are false, `not_equals` and
`not_in` are true. -/
theorem absent_attribute_operator_table (attr v : String) (acc : Accessor)
    (h : acc.get attr = none) :
    evaluate ⟨attr, .equals, v⟩ acc = .ok false ∧
    evaluate ⟨attr, .not_equals, v⟩ acc = .ok true ∧
    evaluate ⟨attr, .contains, v⟩ acc = .ok false ∧
    evaluate ⟨attr, .starts_with, v⟩ acc = .ok false ∧
    evaluate ⟨attr, .ends_with, v⟩ acc = .ok false ∧
    evaluate ⟨attr, .regex, v⟩ acc = .ok false ∧
    evaluate ⟨attr, .in_, v⟩ acc = .ok false ∧
    evaluate ⟨attr, .not_in, v⟩ acc = .ok true := by
  refine ⟨?_, ?_, ?_, ?_, ?_, ?_, ?_, ?_⟩ <;> simp [evaluate, h]

/-- Witness for C4: the operator table evaluated on an empty accessor. -/
theorem absent_attribute_operator_table_witness :
    Accessor.get ⟨[], []⟩ "0010,0010" = none ∧
    evaluate ⟨"0010,0010", .equals, "x"⟩ ⟨[], []⟩ = .ok false ∧
    evaluate ⟨"0010,0010", .not_equals, "x"⟩ ⟨[], []⟩ = .ok true :=
  ⟨rfl, (absent_attribute_operator_table "0010,0010" "x" ⟨[], []⟩ rfl).1,
    (absent_attribute_operator_table "0010,0010" "x" ⟨[], []⟩ rfl).2.1⟩

/-- C1 counterexample: on the modelled engine the regex action with pattern
`(.*)\^(.*)` and replacement `Anon\2` maps `Smith^John` to `AnonJohn`, not to
`John`, and in the spec scenario the tag 0010,0010 ends as `AnonJohn`. -/
theorem regex_backreference_keeps_prefix_counterexample :
    regexSub "(.*)\\^(.*)" "Anon\\2" "Smith^John" = some "AnonJohn" ∧
    regexSub "(.*)\\^(.*)" "Anon\\2" "Smith^John" ≠ some "John" ∧
    (orchestrate idHook none [anonRuleset] scenarioTags scenarioContext).1.get "0010,0010"
      ≠ some "John" := by
  refine ⟨rfl, by decide, by decide⟩

/-- C1 amended: the regex action with pattern `(.*)\^(.*)` and replacement
`Anon\2` maps `Smith^John` to `AnonJohn` and `Doe^Jane` to `AnonJane` (the
substitution keeps the literal prefix `Anon`); in the spec scenario the rule
fires, the tag 0010,0010 becomes `AnonJohn`, and the audit trail records one
matched rule with one successful action. -/
theorem regex_backreference_keeps_prefix :
    regexSub "(.*)\\^(.*)" "Anon\\2" "Smith^John" = some "AnonJohn" ∧
    regexSub "(.*)\\^(.*)" "Anon\\2" "Doe^Jane" = some "AnonJane" ∧
    (orchestrate idHook none [anonRuleset] scenarioTags scenarioContext).1.get "0010,0010"
      = some "AnonJohn" ∧
    (orchestrate idHook none [anonRuleset] scenarioTags scenarioContext).2
      = [⟨"anon", true, false,
          [⟨.regex, some "0010,0010", true, "Smith^John -> AnonJohn"⟩]⟩] := by
  refine ⟨rfl, rfl, rfl, rfl⟩

/-- C5: the resolver orders rules by ascending priority (the sorted list is
pairwise ordered and a permutation of the input) with ties broken stably by
original position (rules of any one priority keep their relative order);
concretely, three all-matching rules with priorities 20, 5, 10 have their
actions applied in the order 5, 10, 20, the last write winning. -/
theorem priority_order_stable :
    (∀ rules : List Rule,
      (sortRules rules).Pairwise (fun a b => a.priority ≤ b.priority)) ∧
    (∀ rules : List Rule, (sortRules rules).Perm rules) ∧
    (∀ (rules : List Rule) (p : Int),
      (sortRules rules).filter (fun r => r.priority == p)
        = rules.filter (fun r => r.priority == p)) ∧
    ((sortRules [taggingRule "r20" 20, taggingRule "r5" 5, taggingRule "r10" 10]).map
        (fun r => r.name) = ["r5", "r10", "r20"]) ∧
    ((resolve idHook .allMatches
        [taggingRule "r20" 20, taggingRule "r5" 5, taggingRule "r10" 10]
        ⟨[], []⟩).2.map (fun e => e.rule_name) = ["r5", "r10", "r20"]) ∧
    ((resolve idHook .allMatches
        [taggingRule "r20" 20, taggingRule "r5" 5, taggingRule "r10" 10]
        ⟨[], []⟩).1.get "0008,0080" = some "r20") :=
  ⟨pairwise_sortRules, sortRules_perm, filter_sortRules, rfl, rfl, rfl⟩

/-- C7: `delete` is idempotent: the first application removes the key and
reports whether it existed, the second application returns the same end state
and reports that the key did not exist, without error; deleting an
already-absent tag is a successful no-op that leaves the object unchanged. -/
theorem delete_idempotent_noop (acc : Accessor) (k : String)
    (hk : contextFieldNames.contains k = false) :
    (acc.deleteKey k
      = .ok ({ acc with tags := acc.tags.filter (fun e => e.1 != k) },
             (lookupS acc.tags k).isSome)) ∧
    (({ acc with tags := acc.tags.filter (fun e => e.1 != k) } : Accessor).deleteKey k
      = .ok ({ acc with tags := acc.tags.filter (fun e => e.1 != k) }, false)) ∧
    (lookupS acc.tags k = none →
      acc.deleteKey k = .ok (acc, false) ∧
      applyAction idHook ⟨.delete, some k, []⟩ acc
        = (acc, ⟨.delete, some k, true, "no-op: key absent"⟩, none)) := by
  have hk2 : k ∉ contextFieldNames := by simpa using hk
  refine ⟨?_, ?_, fun h0 => ⟨?_, ?_⟩⟩
  · simp [Accessor.deleteKey, hk2]
  · simp [Accessor.deleteKey, hk2, filter_ne_idem, lookupS_filter_ne]
  · simp [Accessor.deleteKey, hk2, filter_ne_of_lookupS_none h0, h0]
  · simp [applyAction, Accessor.deleteKey, hk2, filter_ne_of_lookupS_none h0, h0]

/-- Witness for C7: deleting the present tag 0010,0010 and the absent tag
0020,000d on concrete accessors. -/
theorem delete_idempotent_noop_witness :
    Accessor.deleteKey ⟨[("0010,0010", "Smith^John")], []⟩ "0010,0010"
      = .ok (⟨[], []⟩, true) ∧
    Accessor.deleteKey ⟨[], []⟩ "0020,000d" = .ok (⟨[], []⟩, false) ∧
    applyAction idHook ⟨.delete, some "0020,000d", []⟩ ⟨[], []⟩
      = (⟨[], []⟩, ⟨.delete, some "0020,000d", true, "no-op: key absent"⟩, none) := by
  have h1 := delete_idempotent_noop ⟨[("0010,0010", "Smith^John")], []⟩ "0010,0010" (by decide)
  have h2 := delete_idempotent_noop ⟨[], []⟩ "0020,000d" (by decide)
  exact ⟨by simpa using h1.1, (h2.2.2 rfl).1, (h2.2.2 rfl).2⟩

/-- C6: the engine supports both resolution modes behind an explicit flag —
an unset flag means apply-all-matching-rules, a set flag is honoured,
`firstMatch` stops after the first matching rule, and `allMatches` evaluates
every rule (here stated for rules without a `discard` action, since a
discard terminates the run by design). -/
theorem resolution_mode_flag :
    effectiveMode none = .allMatches ∧
    (∀ m : ResolveMode, effectiveMode (some m) = m) ∧
    (∀ (hook : ScriptHook) (r : Rule) (rest : List Rule) (acc : Accessor),
      ruleMatches r acc = .ok true →
      runRules hook .firstMatch (r :: rest) acc
        = ((applyActions hook r.actions acc).1,
           [⟨r.name, true, false, (applyActions hook r.actions acc).2.1⟩])) ∧
    (∀ (hook : ScriptHook) (rules : List Rule) (acc : Accessor),
      (∀ r ∈ rules, ∀ a ∈ r.actions, a.action_type ≠ .discard) →
      ((runRules hook .allMatches rules acc).2).map (fun e => e.rule_name)
        = rules.map (fun r => r.name)) :=
  ⟨rfl, fun _ => rfl, runRules_firstMatch_stops,
    fun hook rules acc h => runRules_allMatches_names hook rules acc h⟩

/-- Witness for C6: two always-matching rules; under `firstMatch` only the
first is applied, under `allMatches` both appear in the audit trail. -/
theorem resolution_mode_flag_witness :
    runRules idHook .firstMatch [taggingRule "a" 1, taggingRule "b" 2] ⟨[], []⟩
      = ((applyActions idHook (taggingRule "a" 1).actions ⟨[], []⟩).1,
         [⟨"a", true, false, (applyActions idHook (taggingRule "a" 1).actions ⟨[], []⟩).2.1⟩]) ∧
    ((runRules idHook .allMatches [taggingRule "a" 1, taggingRule "b" 2] ⟨[], []⟩).2).map
        (fun e => e.rule_name) = ["a", "b"] := by
  refine ⟨resolution_mode_flag.2.2.1 idHook (taggingRule "a" 1) [taggingRule "b" 2]
      ⟨[], []⟩ rfl, ?_⟩
  have h := resolution_mode_flag.2.2.2 idHook [taggingRule "a" 1, taggingRule "b" 2]
    ⟨[], []⟩ (by decide)
  simpa using h

/-- C8: a configuration error inside one rule or action never aborts the
run: a rule whose evaluation errors is skipped (state untouched), recorded as
failed in the audit trail, and the remaining rules still run; a failed
non-script action leaves the accessor unchanged and the remaining actions
still run; in all-matches mode the audit trail covers every rule. -/
theorem config_error_isolated :
    (∀ (hook : ScriptHook) (mode : ResolveMode) (e : EngineError) (bad : Rule)
       (rest : List Rule) (acc : Accessor),
      ruleMatches bad acc = .error e →
      runRules hook mode (bad :: rest) acc
        = ((runRules hook mode rest acc).1,
           ⟨bad.name, false, true, []⟩ :: (runRules hook mode rest acc).2)) ∧
    (∀ (hook : ScriptHook) (a : ActionS) (acts : List ActionS) (acc : Accessor),
      a.action_type ≠ .script →
      (applyAction hook a acc).2.1.success = false →
      applyActions hook (a :: acts) acc
        = ((applyActions hook acts acc).1,
           (applyAction hook a acc).2.1 :: (applyActions hook acts acc).2.1,
           (applyActions hook acts acc).2.2)) ∧
    (∀ (hook : ScriptHook) (rules : List Rule) (acc : Accessor),
      (∀ r ∈ rules, ∀ a ∈ r.actions, a.action_type ≠ .discard) →
      ((runRules hook .allMatches rules acc).2).length = rules.length) := by
  refine ⟨?_, ?_, ?_⟩
  · intro hook mode e bad rest acc hm
    simp [runRules, hm]
  · intro hook a acts acc hs hf
    rcases applyAction_shape hook a acc hs with h | ⟨h1, h2⟩
    · rw [hf] at h
      exact absurd h Bool.false_ne_true
    · simp [applyActions, h2, h1]
  · intro hook rules acc h
    have hn := congrArg List.length (runRules_allMatches_names hook rules acc h)
    simpa using hn

/-- Witness for C8: the invalid-regex rule is recorded as failed while the
next rule still runs (audit covers both rules); the invalid-regex action
fails while the following set_value action still runs. -/
theorem config_error_isolated_witness :
    runRules idHook .allMatches [invalidRegexRule, taggingRule "ok" 5]
        ⟨[("0010,0010", "v")], []⟩
      = ((runRules idHook .allMatches [taggingRule "ok" 5] ⟨[("0010,0010", "v")], []⟩).1,
         ⟨"bad", false, true, []⟩ ::
           (runRules idHook .allMatches [taggingRule "ok" 5] ⟨[("0010,0010", "v")], []⟩).2) ∧
    applyActions idHook [invalidRegexAction, ⟨.set_value, some "0008,0080", [("value", "x")]⟩]
        ⟨[("0010,0010", "v")], []⟩
      = ((applyActions idHook [⟨.set_value, some "0008,0080", [("value", "x")]⟩]
            ⟨[("0010,0010", "v")], []⟩).1,
         (applyAction idHook invalidRegexAction ⟨[("0010,0010", "v")], []⟩).2.1 ::
           (applyActions idHook [⟨.set_value, some "0008,0080", [("value", "x")]⟩]
             ⟨[("0010,0010", "v")], []⟩).2.1,
         (applyActions idHook [⟨.set_value, some "0008,0080", [("value", "x")]⟩]
           ⟨[("0010,0010", "v")], []⟩).2.2) ∧
    ((runRules idHook .allMatches [invalidRegexRule, taggingRule "ok" 5]
        ⟨[("0010,0010", "v")], []⟩).2).length = 2 := by
  refine ⟨config_error_isolated.1 idHook .allMatches
      (.configurationError "invalid regex pattern") invalidRegexRule
      [taggingRule "ok" 5] ⟨[("0010,0010", "v")], []⟩ rfl,
    config_error_isolated.2.1 idHook invalidRegexAction
      [⟨.set_value, some "0008,0080", [("value", "x")]⟩]
      ⟨[("0010,0010", "v")], []⟩ (by decide) rfl, ?_⟩
  have h := config_error_isolated.2.2 idHook [invalidRegexRule, taggingRule "ok" 5]
    ⟨[("0010,0010", "v")], []⟩ (by decide)
  simpa using h

/-- C9: in the rule-authoring form, a condition blocks submission only when
its attribute or its operator is empty (an empty value passes and is
submitted unchanged for every operator), while the displayed validation
message still names Value as a required field. -/
theorem condition_value_not_required
    (parseIntJS : String → Option Int) (jsonOk : String → Bool) (f : RuleFormState)
    (hname : strTrim f.name ≠ "") (pr : Int) (hpr : parseIntJS f.priority = some pr) :
    ((∃ c ∈ f.conditions, c.«attribute» = "" ∨ c.«operator» = "") →
      handleSubmit parseIntJS jsonOk f = .error conditionsRequiredMsg) ∧
    ((∀ c ∈ f.conditions, c.«attribute» ≠ "" ∧ c.«operator» ≠ "") →
      validateActions jsonOk f.actions = none →
      handleSubmit parseIntJS jsonOk f = .ok
        { name := f.name
          description := f.description
          logic_operator := f.logicOperator
          priority := pr
          conditions := f.conditions.map (fun c => ⟨c.«attribute», c.«operator», c.value⟩)
          actions := f.actions.map (fun a => ⟨a.action_type,
            if a.target == "" then none else some a.target,
            if strTrim a.parameters == "" then none else some a.parameters⟩) }) ∧
    strHasSub conditionsRequiredMsg "Value" = true := by
  have hn : (strTrim f.name == "") = false := by simpa using hname
  refine ⟨?_, ?_, by decide⟩
  · intro hex
    have hany : (f.conditions.any (fun c => c.«attribute» == "" || c.«operator» == "")) = true := by
      rw [List.any_eq_true]
      rcases hex with ⟨c, hc, hco⟩
      exact ⟨c, hc, by rcases hco with h | h <;> simp [h]⟩
    simp [handleSubmit, hn, hpr, hany]
  · intro hall hva
    have hany : (f.conditions.any (fun c => c.«attribute» == "" || c.«operator» == "")) = false := by
      rw [List.any_eq_false]
      intro c hc
      rcases hall c hc with ⟨h1, h2⟩
      simp [h1, h2]
    simp [handleSubmit, hn, hpr, hany, hva]

/-- Witness for C9: a rule with one condition whose value is the empty string
is submitted, the empty value passing through unchanged. -/
theorem condition_value_not_required_witness :
    handleSubmit (fun _ => some 0) (fun _ => false)
      ⟨"r", "", "ALL", "0", [⟨"ae_title", "equals", ""⟩], []⟩
      = .ok ⟨"r", "", "ALL", 0, [⟨"ae_title", "equals", ""⟩], []⟩ := by
  have h := condition_value_not_required (fun _ => some 0) (fun _ => false)
    ⟨"r", "", "ALL", "0", [⟨"ae_title", "equals", ""⟩], []⟩ (by decide) 0 rfl
  simpa using h.2.1 (by simp) rfl

/-- C10: in the rule-authoring form, once the name, priority, conditions and
action types pass, submission is blocked with an error iff some action has a
parameters string that is non-blank after trimming and not parseable as JSON;
on success every action is transmitted with an empty target replaced by null
and blank-after-trim parameters replaced by null. -/
theorem action_parameters_json_gate
    (parseIntJS : String → Option Int) (jsonOk : String → Bool) (f : RuleFormState)
    (hname : strTrim f.name ≠ "") (pr : Int) (hpr : parseIntJS f.priority = some pr)
    (hconds : ∀ c ∈ f.conditions, c.«attribute» ≠ "" ∧ c.«operator» ≠ "")
    (htypes : ∀ a ∈ f.actions, a.action_type ≠ "") :
    ((∃ msg, handleSubmit parseIntJS jsonOk f = .error msg) ↔
      ∃ a ∈ f.actions, strTrim a.parameters ≠ "" ∧ jsonOk a.parameters = false) ∧
    (∀ payload, handleSubmit parseIntJS jsonOk f = .ok payload →
      payload.actions = f.actions.map (fun a => ⟨a.action_type,
        if a.target == "" then none else some a.target,
        if strTrim a.parameters == "" then none else some a.parameters⟩)) := by
  have hn : (strTrim f.name == "") = false := by simpa using hname
  have hany : (f.conditions.any (fun c => c.«attribute» == "" || c.«operator» == "")) = false := by
    rw [List.any_eq_false]
    intro c hc
    rcases hconds c hc with ⟨h1, h2⟩
    simp [h1, h2]
  cases hva : validateActions jsonOk f.actions with
  | some msg =>
    have hS : handleSubmit parseIntJS jsonOk f = .error msg := by
      simp [handleSubmit, hn, hpr, hany, hva]
    constructor
    · rw [← validateActions_ne_none_iff jsonOk f.actions htypes]
      simp [hS, hva]
    · intro payload hp
      rw [hS] at hp
      cases hp
  | none =>
    have hS : handleSubmit parseIntJS jsonOk f = .ok
        { name := f.name
          description := f.description
          logic_operator := f.logicOperator
          priority := pr
          conditions := f.conditions.map (fun c => ⟨c.«attribute», c.«operator», c.value⟩)
          actions := f.actions.map (fun a => ⟨a.action_type,
            if a.target == "" then none else some a.target,
            if strTrim a.parameters == "" then none else some a.parameters⟩) } := by
      simp [handleSubmit, hn, hpr, hany, hva]
    constructor
    · rw [← validateActions_ne_none_iff jsonOk f.actions htypes]
      simp [hS, hva]
    · intro payload hp
      rw [hS] at hp
      cases hp
      rfl

/-- Witness for C10: an action with unparseable non-blank parameters blocks
submission; an action with blank parameters and non-empty target is
transmitted with parameters null and the target kept. -/
theorem action_parameters_json_gate_witness :
    (∃ msg, handleSubmit (fun _ => some 1) (fun _ => false)
      ⟨"n", "", "ALL", "1", [], [⟨"log", "", "oops"⟩]⟩ = .error msg) ∧
    handleSubmit (fun _ => some 1) (fun _ => false)
      ⟨"n", "", "ALL", "1", [], [⟨"log", "tgt", "  "⟩]⟩
      = .ok ⟨"n", "", "ALL", 1, [], [⟨"log", some "tgt", none⟩]⟩ ∧
    [(⟨"log", some "tgt", none⟩ : PayloadAction)]
      = ([⟨"log", "tgt", "  "⟩] : List FormAction).map (fun a => ⟨a.action_type,
          if a.target == "" then none else some a.target,
          if strTrim a.parameters == "" then none else some a.parameters⟩) := by
  refine ⟨?_, rfl, ?_⟩
  · exact (action_parameters_json_gate (fun _ => some 1) (fun _ => false)
      ⟨"n", "", "ALL", "1", [], [⟨"log", "", "oops"⟩]⟩ (by decide) 1 rfl
      (by simp) (by decide)).1.mpr ⟨⟨"log", "", "oops"⟩, by simp, by decide, rfl⟩
  · have h := (action_parameters_json_gate (fun _ => some 1) (fun _ => false)
      ⟨"n", "", "ALL", "1", [], [⟨"log", "tgt", "  "⟩]⟩ (by decide) 1 rfl
      (by simp) (by decide)).2 ⟨"n", "", "ALL", 1, [], [⟨"log", some "tgt", none⟩]⟩ rfl
    simpa using h

end Disco
